import Mathlib

/-
Verification development for the ditto Go SDK (package `ditto`).

The package is a thin client for a Ditto Edge HTTP API: pure query builders
(`BuildSelect`, `BuildInsert`, `BuildUpdate`), an HTTP execute layer
(`exec`, `execWithArgs`) posting `{query, query_args?}` to
`<baseURL>/<appID>/execute`, and optional Docker/Compose container-lifecycle
helpers (`InitDB`, `Close`, `ContainerStatus`).

Shallow embedding conventions:
- Go strings are Lean `String` (a wrapper around `List Char`); the Go
  standard-library string helpers used by the package (`strings.ToLower`,
  `strings.TrimSpace`, `strings.ReplaceAll` with single-character patterns,
  `strings.Join`, `strings.HasPrefix`, `strings.Contains`,
  `strings.TrimRight` with a single-character cutset) are embedded as
  character-list operations with the same meaning.
- Go `map[string]any` values are association lists over an inductive JSON-like
  value type `GoVal`; Go map iteration order is the list order, left abstract.
- Fallible Go functions returning `(..., error)` become `Except String _`.
- HTTP and subprocess effects are embedded by explicit parameters: an oracle
  mapping each issued request to an outcome, and a returned trace of the
  requests / runner calls actually issued.
-/

/-- The backtick character U+0060, written by code point to keep source plain. -/
def backquote : Char := Char.ofNat 96

/-- Embeds `strings.ToLower` (ASCII case mapping) as used on `docker ps` output. -/
def goToLower (s : String) : String := String.mk (s.data.map Char.toLower)

/-- Embeds `strings.ToUpper` (ASCII case mapping) as used on the sortOrder argument. -/
def goToUpper (s : String) : String := String.mk (s.data.map Char.toUpper)

/-- Embeds `strings.TrimSpace`: drop whitespace from both ends. -/
def goTrimSpace (s : String) : String :=
  String.mk (((s.data.dropWhile Char.isWhitespace).reverse.dropWhile Char.isWhitespace).reverse)

/-- Embeds `strings.TrimRight(s, cutset)` for a single-character cutset. -/
def goTrimRight (s : String) (cut : Char) : String :=
  String.mk ((s.data.reverse.dropWhile (fun c => c = cut)).reverse)

/-- Embeds `strings.HasPrefix s pre`. -/
def goStartsWith (s pre : String) : Bool := pre.data.isPrefixOf s.data

/-- Embeds `strings.Contains s sub`: `sub` occurs as a contiguous substring of `s`. -/
def goContains (s sub : String) : Bool := decide (sub.data <:+: s.data)

/-- Embeds `strings.Join parts sep`. -/
def goJoin (sep : String) : List String → String
  | [] => ""
  | [x] => x
  | x :: y :: xs => x ++ sep ++ goJoin sep (y :: xs)

/-- `escapeIdent` from the source: removes backticks and replaces spaces with
underscores (`strings.ReplaceAll` twice, both with single-character patterns,
embedded as a filter followed by a character map). -/
def escapeIdent (s : String) : String :=
  String.mk ((s.data.filter (fun c => c ≠ backquote)).map (fun c => if c = ' ' then '_' else c))

/-- `escapeString` from the source: backslash-escapes double quotes
(`strings.ReplaceAll(s, quote, backslash-quote)`, embedded character-wise). -/
def escapeString (s : String) : String :=
  String.mk (s.data.flatMap (fun c => if c = '"' then ['\\', '"'] else [c]))

/-- A JSON-like dynamic value, standing for Go `any` as used for documents,
patch values and query arguments. -/
inductive GoVal where
  | null
  | boolean (b : Bool)
  | num (n : Int)
  | str (s : String)
  | arr (xs : List GoVal)
  | obj (fields : List (String × GoVal))

/-- A Go `map[string]any` of query arguments, as an association list whose
order is the (abstract) map iteration order. -/
abbrev ArgMap := List (String × GoVal)

-- Query builders ----------------------------------------------------------

/-- The filter loop body of `BuildSelect`: for each `(k, v)` pair the Go loop
writes `" AND "` when the running index `i` is positive, then
`escapeIdent k == "escapeString v"`. -/
def selectFilters : Nat → List (String × String) → String
  | _, [] => ""
  | i, (k, v) :: rest =>
    (if i > 0 then " AND " else "") ++ escapeIdent k ++ " == \"" ++ escapeString v ++ "\"" ++
      selectFilters (i + 1) rest

/-- `BuildSelect` from the source: `SELECT * FROM` the sanitized collection,
a WHERE clause when filters are present, `ORDER BY` when sortBy is non-empty
(with ` DESC`, or ` ASC`, appended when the upper-cased sortOrder equals that
word), and `LIMIT` when limit is positive. -/
def BuildSelect (collection : String) (filters : List (String × String)) (limit : Int)
    (sortBy sortOrder : String) : String :=
  let base := "SELECT * FROM " ++ escapeIdent collection
  let withWhere :=
    if filters.length > 0 then base ++ " WHERE " ++ selectFilters 0 filters else base
  let withOrder :=
    if sortBy ≠ "" then
      withWhere ++ " ORDER BY " ++ escapeIdent sortBy ++
        (if goToUpper sortOrder = "DESC" then " DESC"
         else if goToUpper sortOrder = "ASC" then " ASC"
         else "")
    else withWhere
  if limit > 0 then withOrder ++ " LIMIT " ++ toString limit else withOrder

/-- `BuildInsert` from the source: fails when the collection is empty,
otherwise binds the whole document under the single parameter `doc`. -/
def BuildInsert (collection : String) (doc : List (String × GoVal)) :
    Except String (String × ArgMap) :=
  if collection = "" then .error "collection required"
  else
    .ok ("INSERT INTO " ++ escapeIdent collection ++ " DOCUMENTS (:doc)",
         [("doc", GoVal.obj doc)])

/-- `BuildUpdate` from the source: validates collection, id and patch, then
emits one SET clause `escapeIdent k = :p_k` per patch field and binds the
value under `p_k` in the argument map, which also binds `id`. -/
def BuildUpdate (collection id : String) (patch : List (String × GoVal)) :
    Except String (String × ArgMap) :=
  if collection = "" ∨ id = "" then .error "collection and id required"
  else if patch.length = 0 then .error "patch is empty"
  else
    let parts := patch.map (fun p => escapeIdent p.1 ++ " = :p_" ++ p.1)
    let args : ArgMap := ("id", GoVal.str id) :: patch.map (fun p => ("p_" ++ p.1, p.2))
    .ok ("UPDATE " ++ escapeIdent collection ++ " SET " ++ goJoin ", " parts ++
           " WHERE _id == :id",
         args)

-- HTTP execute layer ------------------------------------------------------

/-- Connection configuration of the `service` struct (the fields the execute
path reads). -/
structure ServiceCfg where
  BaseURL : String
  AppID : String

/-- The execute endpoint URL: `TrimRight(BaseURL, "/") ++ "/" ++ AppID ++ "/execute"`. -/
def execUrl (s : ServiceCfg) : String :=
  goTrimRight s.BaseURL '/' ++ "/" ++ s.AppID ++ "/execute"

/-- An HTTP POST to the execute endpoint: the URL, the DQL query, and the
optional `query_args` object (absent when the Go code passes a nil map). -/
structure Request where
  url : String
  query : String
  queryArgs : Option ArgMap

/-- The outcome the HTTP client delivers for a request: a transport error
from `HTTP.Do`, or a response with a status code and a body. -/
inductive HttpOutcome where
  | transportError (msg : String)
  | response (statusCode : Nat) (body : String)

/-- An HTTP environment: what the server answers for each issued request. -/
abbrev HttpOracle := Request → HttpOutcome

/-- A JSON decoder standing for `encoding/json` decoding of a response body. -/
abbrev Decoder := String → Except String GoVal

/-- The body snippet of the non-2xx error path: the body truncated to 256
characters with an ellipsis appended when it was longer. -/
def truncSnippet (body : String) : String :=
  if body.length > 256 then String.mk (body.data.take 256) ++ "..." else body

/-- The query echo of the non-2xx error path: the query truncated to 200
characters with an ellipsis appended when it was longer. -/
def truncQuery (q : String) : String :=
  if q.length > 200 then String.mk (q.data.take 200) ++ "..." else q

/-- The non-2xx error message `fmt.Errorf("ditto http %d: %s | query: %s", ...)`
with the trimmed truncated body and the truncated query. -/
def dittoHttpErrMsg (statusCode : Nat) (body q : String) : String :=
  "ditto http " ++ toString statusCode ++ ": " ++ goTrimSpace (truncSnippet body) ++
    " | query: " ++ truncQuery q

/-- `exec` from the source: posts `{query}` (no `query_args`) to the execute
endpoint; non-2xx responses become the formatted error, 2xx bodies are
JSON-decoded. Returns the issued requests together with the result. -/
def execT (s : ServiceCfg) (oracle : HttpOracle) (decode : Decoder) (query : String) :
    List Request × Except String GoVal :=
  let req : Request := ⟨execUrl s, query, none⟩
  match oracle req with
  | .transportError e => ([req], .error e)
  | .response code body =>
    if code / 100 ≠ 2 then ([req], .error (dittoHttpErrMsg code body query))
    else ([req], decode body)

/-- `execWithArgs` from the source: as `exec` but the payload carries
`query_args` when an argument map is supplied. -/
def execWithArgsT (s : ServiceCfg) (oracle : HttpOracle) (decode : Decoder) (query : String)
    (args : Option ArgMap) : List Request × Except String GoVal :=
  let req : Request := ⟨execUrl s, query, args⟩
  match oracle req with
  | .transportError e => ([req], .error e)
  | .response code body =>
    if code / 100 ≠ 2 then ([req], .error (dittoHttpErrMsg code body query))
    else ([req], decode body)

-- Service CRUD methods (with their issued-request traces) ------------------

/-- `CreateDocument`: `BuildInsert` then `execWithArgs`. -/
def CreateDocumentT (s : ServiceCfg) (oracle : HttpOracle) (decode : Decoder)
    (collection : String) (doc : List (String × GoVal)) :
    List Request × Except String GoVal :=
  match BuildInsert collection doc with
  | .error e => ([], .error e)
  | .ok (q, args) => execWithArgsT s oracle decode q (some args)

/-- `GetRecord`: a fixed parameterized SELECT by `_id`. -/
def GetRecordT (s : ServiceCfg) (oracle : HttpOracle) (decode : Decoder)
    (collection id : String) : List Request × Except String GoVal :=
  execWithArgsT s oracle decode
    ("SELECT * FROM " ++ escapeIdent collection ++ " WHERE _id == :id LIMIT 1")
    (some [("id", GoVal.str id)])

/-- `GetRecords`: `BuildSelect` with nil filters, then `execWithArgs` with nil args. -/
def GetRecordsT (s : ServiceCfg) (oracle : HttpOracle) (decode : Decoder)
    (collection : String) (limit : Int) (sortBy sortOrder : String) :
    List Request × Except String GoVal :=
  execWithArgsT s oracle decode (BuildSelect collection [] limit sortBy sortOrder) none

/-- `UpdateRecord`: `BuildUpdate` then `execWithArgs`; build errors are
returned before any request is issued. -/
def UpdateRecordT (s : ServiceCfg) (oracle : HttpOracle) (decode : Decoder)
    (collection id : String) (patch : List (String × GoVal)) :
    List Request × Except String GoVal :=
  match BuildUpdate collection id patch with
  | .error e => ([], .error e)
  | .ok (q, args) => execWithArgsT s oracle decode q (some args)

/-- `DeleteRecord`: a fixed parameterized DELETE by `_id`. -/
def DeleteRecordT (s : ServiceCfg) (oracle : HttpOracle) (decode : Decoder)
    (collection id : String) : List Request × Except String GoVal :=
  execWithArgsT s oracle decode
    ("DELETE FROM " ++ escapeIdent collection ++ " WHERE _id = :id")
    (some [("id", GoVal.str id)])

/-- `DeleteAllRecords`: validates the collection, then a DELETE with a LIKE
pattern bound to the wildcard. -/
def DeleteAllRecordsT (s : ServiceCfg) (oracle : HttpOracle) (decode : Decoder)
    (collection : String) : List Request × Except String GoVal :=
  if collection = "" then ([], .error "collection required")
  else
    execWithArgsT s oracle decode
      ("DELETE FROM " ++ escapeIdent collection ++ " WHERE _id LIKE :pattern")
      (some [("pattern", GoVal.str "%")])

/-- `LatestRecord`: `BuildSelect` with limit 1 and `DESC` on sortBy, nil args. -/
def LatestRecordT (s : ServiceCfg) (oracle : HttpOracle) (decode : Decoder)
    (collection sortBy : String) : List Request × Except String GoVal :=
  execWithArgsT s oracle decode (BuildSelect collection [] 1 sortBy "DESC") none

/-- `Search`: `BuildSelect` with the given filters, nil args. -/
def SearchT (s : ServiceCfg) (oracle : HttpOracle) (decode : Decoder)
    (collection : String) (filters : List (String × String)) (limit : Int)
    (sortBy sortOrder : String) : List Request × Except String GoVal :=
  execWithArgsT s oracle decode (BuildSelect collection filters limit sortBy sortOrder) none

-- Container lifecycle ------------------------------------------------------

/-- The DockerRunner operations a service call can invoke. -/
inductive RunnerCall where
  | ensureImage
  | containerStatus
  | runContainer
  | startContainer
  | stopContainer
deriving DecidableEq

/-- One behavior of an attached DockerRunner: the outcome each operation
would produce when invoked. -/
structure RunnerBeh where
  ensureImage : Except String Unit
  containerStatus : Except String String
  runContainer : Except String Unit
  startContainer : Except String Unit
  stopContainer : Except String Unit

/-- `InitDB` from the source, with the runner embedded as a behavior and the
invoked operations traced. Returns (calls, result, new startedDocker flag):
no-op without a runner; ensure image, read status; `running` returns nil;
`exited` recreates via RunContainer (early return, flag untouched); anything
else runs a new container and sets the flag on success. -/
def serviceInitDB (docker : Option RunnerBeh) (startedDocker : Bool) :
    List RunnerCall × Except String Unit × Bool :=
  match docker with
  | none => ([], .ok (), startedDocker)
  | some r =>
    match r.ensureImage with
    | .error e => ([.ensureImage], .error ("ensure image: " ++ e), startedDocker)
    | .ok _ =>
      match r.containerStatus with
      | .error e =>
        ([.ensureImage, .containerStatus], .error ("container status: " ++ e), startedDocker)
      | .ok status =>
        if status = "running" then
          ([.ensureImage, .containerStatus], .ok (), startedDocker)
        else if status = "exited" then
          match r.runContainer with
          | .error e =>
            ([.ensureImage, .containerStatus, .runContainer],
             .error ("start container: " ++ e), startedDocker)
          | .ok _ =>
            ([.ensureImage, .containerStatus, .runContainer], .ok (), startedDocker)
        else
          match r.runContainer with
          | .error e =>
            ([.ensureImage, .containerStatus, .runContainer],
             .error ("run container: " ++ e), startedDocker)
          | .ok _ =>
            ([.ensureImage, .containerStatus, .runContainer], .ok (), true)

/-- `Close` from the source: when a runner is attached it invokes
StopContainer and discards its outcome; it always returns nil. The
startedDocker flag is not consulted. -/
def serviceClose (docker : Option RunnerBeh) (startedDocker : Bool) :
    List RunnerCall × Except String Unit :=
  match docker with
  | none => ([], .ok ())
  | some _ => ([.stopContainer], .ok ())

/-- The status classification of `dockerRunnerDefault.ContainerStatus`
applied to the combined output of the `docker ps` invocation: trim, lower,
then classify by emptiness and prefix. -/
def dockerContainerStatusClassify (out : String) : String :=
  let s := goToLower (goTrimSpace out)
  if s = "" then "not-found"
  else if goStartsWith s "up " then "running"
  else if goStartsWith s "exited " then "exited"
  else s

/-- The status classification of `composeRunnerDefault.ContainerStatus`,
textually identical to the plain-docker one. -/
def composeContainerStatusClassify (out : String) : String :=
  let s := goToLower (goTrimSpace out)
  if s = "" then "not-found"
  else if goStartsWith s "up " then "running"
  else if goStartsWith s "exited " then "exited"
  else s


-- Helper lemmas -----------------------------------------------------------

/-- One rendered exact-match filter term: `field == "value"` with the
sanitized field and the escaped value. -/
def selectTerm (p : String × String) : String :=
  escapeIdent p.1 ++ " == \"" ++ escapeString p.2 ++ "\""

/-- At any positive index the filter loop prepends the separator to every term. -/
theorem selectFilters_pos (fs : List (String × String)) (i : Nat) :
    selectFilters (i + 1) fs =
      (fs.map (fun p => " AND " ++ selectTerm p)).foldr (fun a b => a ++ b) "" := by
  induction fs generalizing i with
  | nil => rfl
  | cons p rest ih =>
    obtain ⟨k, v⟩ := p
    simp [selectFilters, selectTerm, ih (i + 1), String.append_assoc]

/-- Folding separator-prefixed terms over a non-empty list is the separator
followed by the join. -/
theorem foldr_sep_goJoin (x : String) (xs : List String) :
    ((x :: xs).map (fun y => " AND " ++ y)).foldr (fun a b => a ++ b) "" =
      " AND " ++ goJoin " AND " (x :: xs) := by
  induction xs generalizing x with
  | nil => simp [goJoin]
  | cons y ys ih =>
    rw [List.map_cons, List.foldr_cons, ih y, goJoin]
    simp [String.append_assoc]

/-- The filter loop, started at index zero as `BuildSelect` does, renders the
terms joined by the AND separator. -/
theorem selectFilters_eq_goJoin (fs : List (String × String)) :
    selectFilters 0 fs = goJoin " AND " (fs.map selectTerm) := by
  cases fs with
  | nil => rfl
  | cons p rest =>
    obtain ⟨k, v⟩ := p
    cases rest with
    | nil => simp [selectFilters, selectTerm, goJoin]
    | cons q rs =>
      have h1 : selectFilters 0 ((k, v) :: q :: rs) =
          selectTerm (k, v) ++ selectFilters (0 + 1) (q :: rs) := by
        simp [selectFilters, selectTerm, String.append_assoc]
      have h2 : ((q :: rs).map (fun p => " AND " ++ selectTerm p)).foldr
            (fun a b => a ++ b) "" =
          " AND " ++ goJoin " AND " ((q :: rs).map selectTerm) := by
        simpa [Function.comp] using foldr_sep_goJoin (selectTerm q) (rs.map selectTerm)
      rw [h1, selectFilters_pos (q :: rs) 0, h2, List.map_cons, List.map_cons]
      simp [goJoin, String.append_assoc]

-- Claim theorems -----------------------------------------------------------

/-- C1: for every collection, filter list, limit, sortBy and sortOrder,
`BuildSelect` returns `SELECT * FROM ` followed by the sanitized collection,
then (only when filters are present) a WHERE clause of `field == "value"`
terms joined by ` AND `, then (only when sortBy is non-empty) an ORDER BY
clause with ASC/DESC appended when sortOrder case-insensitively equals those
words, then (only when limit is positive) `LIMIT <limit>`, in that order;
with no filters, empty sortBy and limit 0 the output is exactly
`SELECT * FROM <collection>`. -/
theorem buildSelect_clause_format (collection : String) (filters : List (String × String))
    (limit : Int) (sortBy sortOrder : String) :
    BuildSelect collection filters limit sortBy sortOrder =
      "SELECT * FROM " ++ escapeIdent collection ++
        (if filters = [] then ""
         else " WHERE " ++ goJoin " AND " (filters.map selectTerm)) ++
        (if sortBy = "" then ""
         else " ORDER BY " ++ escapeIdent sortBy ++
           (if goToUpper sortOrder = "DESC" then " DESC"
            else if goToUpper sortOrder = "ASC" then " ASC"
            else "")) ++
        (if limit > 0 then " LIMIT " ++ toString limit else "") ∧
      BuildSelect collection [] 0 "" sortOrder = "SELECT * FROM " ++ escapeIdent collection := by
  constructor
  · by_cases hf : filters = [] <;> by_cases hs : sortBy = "" <;> by_cases hl : limit > 0 <;>
      simp [BuildSelect, hf, hs, hl, List.length_pos, selectFilters_eq_goJoin,
        String.append_assoc]
  · simp [BuildSelect]

/-- Appending to a fixed string on the left is injective. -/
theorem string_append_right_inj (a : String) {x y : String} : a ++ x = a ++ y ↔ x = y := by
  constructor
  · intro h
    apply String.ext
    have h1 := congrArg String.data h
    simpa using h1
  · intro h
    rw [h]

/-- A generated patch parameter name never collides with the id parameter. -/
theorem p_param_ne_id (k : String) : ("p_" ++ k) ≠ "id" := by
  intro h
  have h1 := congrArg String.data h
  rw [String.data_append] at h1
  have h2 : "p_".data = ['p', '_'] := rfl
  have h3 : "id".data = ['i', 'd'] := rfl
  rw [h2, h3] at h1
  simp at h1

/-- Looking a generated parameter name up in the mapped patch is looking the
field up in the patch. -/
theorem lookup_p_args (patch : List (String × GoVal)) (k : String) :
    List.lookup ("p_" ++ k) (patch.map (fun p => ("p_" ++ p.1, p.2))) =
      List.lookup k patch := by
  induction patch with
  | nil => rfl
  | cons p rest ih =>
    obtain ⟨a, v⟩ := p
    by_cases hka : k = a
    · simp [List.lookup, hka]
    · have hne : ("p_" ++ k) ≠ ("p_" ++ a) := by
        rw [Ne, string_append_right_inj]
        exact hka
      have hb : ("p_" ++ k == "p_" ++ a) = false := beq_eq_false_iff_ne.mpr hne
      have hb2 : (k == a) = false := beq_eq_false_iff_ne.mpr hka
      simp [List.lookup, hb, hb2, ih]

/-- C2: for non-empty collection, id and patch, `BuildUpdate` succeeds with
the statement `UPDATE <sanitized collection> SET <clauses> WHERE _id == :id`,
one clause `<sanitized k> = :p_<k>` per patch field, and an argument map
binding `id` to the id and each `p_<k>` to the patch value of `k`. -/
theorem buildUpdate_ok_format (collection id : String) (patch : List (String × GoVal))
    (hc : collection ≠ "") (hid : id ≠ "") (hp : patch ≠ []) :
    BuildUpdate collection id patch =
      .ok ("UPDATE " ++ escapeIdent collection ++ " SET " ++
             goJoin ", " (patch.map (fun p => escapeIdent p.1 ++ " = :p_" ++ p.1)) ++
             " WHERE _id == :id",
           ("id", GoVal.str id) :: patch.map (fun p => ("p_" ++ p.1, p.2))) ∧
      (("id", GoVal.str id) :: patch.map (fun p => ("p_" ++ p.1, p.2))).lookup "id" =
        some (GoVal.str id) ∧
      ∀ k v, patch.lookup k = some v →
        (("id", GoVal.str id) :: patch.map (fun p => ("p_" ++ p.1, p.2))).lookup
            ("p_" ++ k) = some v := by
  refine ⟨?_, ?_, ?_⟩
  · have hlen : patch.length ≠ 0 := by
      simpa [List.length_eq_zero] using hp
    simp [BuildUpdate, hc, hid, hlen]
  · simp [List.lookup]
  · intro k v hkv
    have hb : ("p_" ++ k == "id") = false := beq_eq_false_iff_ne.mpr (p_param_ne_id k)
    simp [List.lookup, hb, lookup_p_args, hkv]

/-- C2 witness: patch `{"age": 31}` and id `"u1"` on collection `"users"`
produce the expected statement, bind the generated parameter `p_age` to 31
and bind `id` to `"u1"`. -/
theorem buildUpdate_ok_format_witness :
    BuildUpdate "users" "u1" [("age", GoVal.num 31)] =
      .ok ("UPDATE users SET age = :p_age WHERE _id == :id",
           [("id", GoVal.str "u1"), ("p_age", GoVal.num 31)]) ∧
      ([("id", GoVal.str "u1"), ("p_age", GoVal.num 31)] : ArgMap).lookup "p_age" =
        some (GoVal.num 31) ∧
      ([("id", GoVal.str "u1"), ("p_age", GoVal.num 31)] : ArgMap).lookup "id" =
        some (GoVal.str "u1") := by
  have h := buildUpdate_ok_format "users" "u1" [("age", GoVal.num 31)]
    (by decide) (by decide) (List.cons_ne_nil _ _)
  exact ⟨h.1, h.2.2 "age" (GoVal.num 31) rfl, h.2.1⟩

/-- C3: `BuildUpdate` returns a validation error exactly when the collection
is empty, the id is empty, or the patch is empty; and when it errors,
`UpdateRecord` returns that error with no HTTP request issued. -/
theorem buildUpdate_error_iff (collection id : String) (patch : List (String × GoVal)) :
    ((∃ e, BuildUpdate collection id patch = .error e) ↔
      (collection = "" ∨ id = "" ∨ patch = [])) ∧
    (∀ e, BuildUpdate collection id patch = .error e →
      ∀ (s : ServiceCfg) (oracle : HttpOracle) (decode : Decoder),
        UpdateRecordT s oracle decode collection id patch = ([], .error e)) := by
  constructor
  · constructor
    · rintro ⟨e, he⟩
      by_contra hn
      push_neg at hn
      obtain ⟨hc, hid, hp⟩ := hn
      have hlen : patch.length ≠ 0 := by
        simpa [List.length_eq_zero] using hp
      simp [BuildUpdate, hc, hid, hlen] at he
    · intro h
      by_cases h1 : collection = "" ∨ id = ""
      · exact ⟨"collection and id required", by simp [BuildUpdate, h1]⟩
      · have hp : patch = [] := by tauto
        exact ⟨"patch is empty", by simp [BuildUpdate, h1, hp]⟩
  · intro e he s oracle decode
    simp [UpdateRecordT, he]

/-- C3 witness: with a non-empty collection and id but an empty patch,
`UpdateRecord` returns the validation error and issues no request. -/
theorem buildUpdate_error_iff_witness :
    UpdateRecordT ⟨"http://h", "app"⟩ (fun _ => HttpOutcome.response 200 "null")
        (fun _ => Except.ok GoVal.null) "users" "u1" [] =
      ([], .error "patch is empty") :=
  (buildUpdate_error_iff "users" "u1" []).2 "patch is empty" rfl
    ⟨"http://h", "app"⟩ (fun _ => HttpOutcome.response 200 "null")
    (fun _ => Except.ok GoVal.null)

/-- C4: `BuildInsert` errors exactly when the collection is empty; otherwise
it returns `INSERT INTO <sanitized collection> DOCUMENTS (:doc)` with the
whole document bound verbatim under the single key `doc`. -/
theorem buildInsert_spec (collection : String) (doc : List (String × GoVal)) :
    ((∃ e, BuildInsert collection doc = .error e) ↔ collection = "") ∧
    (collection = "" → BuildInsert collection doc = .error "collection required") ∧
    (collection ≠ "" → BuildInsert collection doc =
      .ok ("INSERT INTO " ++ escapeIdent collection ++ " DOCUMENTS (:doc)",
           [("doc", GoVal.obj doc)])) := by
  refine ⟨⟨?_, ?_⟩, ?_, ?_⟩
  · rintro ⟨e, he⟩
    by_contra hc
    simp [BuildInsert, hc] at he
  · intro h
    exact ⟨"collection required", by simp [BuildInsert, h]⟩
  · intro h
    simp [BuildInsert, h]
  · intro h
    simp [BuildInsert, h]

/-- C4 witness: an empty collection errors, and collection `"users"` with an
empty document succeeds with the full document bound under `doc`. -/
theorem buildInsert_spec_witness :
    BuildInsert "" [("k", GoVal.null)] = .error "collection required" ∧
    BuildInsert "users" [] =
      .ok ("INSERT INTO users DOCUMENTS (:doc)", [("doc", GoVal.obj [])]) :=
  ⟨(buildInsert_spec "" [("k", GoVal.null)]).2.1 rfl,
   (buildInsert_spec "users" []).2.2 (by decide)⟩

/-- A middle segment of a three-part concatenation is contained in it. -/
theorem goContains_middle (a b c : String) : goContains (a ++ b ++ c) b = true := by
  rw [goContains, decide_eq_true_eq, String.data_append, String.data_append]
  exact List.infix_append _ _ _

/-- A final segment of a two-part concatenation is contained in it. -/
theorem goContains_tail (a b : String) : goContains (a ++ b) b = true := by
  have h := goContains_middle a b ""
  rwa [String.append_assoc, String.append_empty] at h

/-- C5 (amended): a non-2xx response makes `exec` and `execWithArgs` return
the formatted error, whose message contains the numeric status code, the
whitespace-trimmed truncation of the response body to at most 256 characters
(ellipsis appended when truncated), and the query truncated to at most 200
characters; a 2xx response is JSON-decoded and returned. -/
theorem exec_non2xx_error (s : ServiceCfg) (oracle : HttpOracle) (decode : Decoder)
    (query : String) (args : Option ArgMap) (code : Nat) (body : String)
    (h1 : oracle ⟨execUrl s, query, none⟩ = .response code body)
    (h2 : oracle ⟨execUrl s, query, args⟩ = .response code body) :
    (code / 100 ≠ 2 →
      (execT s oracle decode query).2 = .error (dittoHttpErrMsg code body query) ∧
      (execWithArgsT s oracle decode query args).2 =
        .error (dittoHttpErrMsg code body query) ∧
      goContains (dittoHttpErrMsg code body query) (toString code) = true ∧
      goContains (dittoHttpErrMsg code body query) (goTrimSpace (truncSnippet body)) = true ∧
      goContains (dittoHttpErrMsg code body query) (truncQuery query) = true) ∧
    (code / 100 = 2 →
      (execT s oracle decode query).2 = decode body ∧
      (execWithArgsT s oracle decode query args).2 = decode body) := by
  constructor
  · intro hc
    refine ⟨by simp [execT, h1, hc], by simp [execWithArgsT, h2, hc], ?_, ?_, ?_⟩
    · have hsplit : dittoHttpErrMsg code body query =
          "ditto http " ++ toString code ++
            (": " ++ goTrimSpace (truncSnippet body) ++ (" | query: " ++ truncQuery query)) := by
        simp [dittoHttpErrMsg, String.append_assoc]
      rw [hsplit]
      exact goContains_middle _ _ _
    · have hsplit : dittoHttpErrMsg code body query =
          "ditto http " ++ toString code ++ ": " ++ goTrimSpace (truncSnippet body) ++
            (" | query: " ++ truncQuery query) := by
        simp [dittoHttpErrMsg, String.append_assoc]
      rw [hsplit]
      exact goContains_middle _ _ _
    · have hsplit : dittoHttpErrMsg code body query =
          ("ditto http " ++ toString code ++ ": " ++ goTrimSpace (truncSnippet body) ++
            " | query: ") ++ truncQuery query := by
        simp [dittoHttpErrMsg, String.append_assoc]
      rw [hsplit]
      exact goContains_tail _ _
  · intro hc
    exact ⟨by simp [execT, h1, hc], by simp [execWithArgsT, h2, hc]⟩

/-- C5 witness: a 500 response with body `"boom"` on query `"q"` yields the
formatted error containing the code, the trimmed snippet and the query. -/
theorem exec_non2xx_error_witness :
    (execT ⟨"http://h", "app"⟩ (fun _ => HttpOutcome.response 500 "boom")
        (fun _ => Except.ok GoVal.null) "q").2 =
      .error "ditto http 500: boom | query: q" ∧
    goContains "ditto http 500: boom | query: q" "500" = true ∧
    goContains "ditto http 500: boom | query: q" "boom" = true ∧
    goContains "ditto http 500: boom | query: q" "q" = true := by
  have h := exec_non2xx_error ⟨"http://h", "app"⟩
    (fun _ => HttpOutcome.response 500 "boom") (fun _ => Except.ok GoVal.null)
    "q" none 500 "boom" rfl rfl
  obtain ⟨hmain, -⟩ := h
  obtain ⟨e1, -, c1, c2, c3⟩ := hmain (by decide)
  exact ⟨e1, c1, c2, c3⟩

/-- C5 counterexample: for the non-2xx response with body `"err\n"` the
returned error message does not contain the ellipsis-truncated body itself
(only its whitespace-trimmed form), refuting the claim as stated. -/
theorem exec_body_not_contained_counterexample :
    (500 : Nat) / 100 ≠ 2 ∧
    (execT ⟨"http://h", "app"⟩ (fun _ => HttpOutcome.response 500 "err\n")
        (fun _ => Except.ok GoVal.null) "q").2 =
      .error "ditto http 500: err | query: q" ∧
    truncSnippet "err\n" = "err\n" ∧
    goContains "ditto http 500: err | query: q" (truncSnippet "err\n") = false := by
  refine ⟨by decide, rfl, by decide, by decide⟩

/-- A string with a non-empty literal start is itself non-empty. -/
theorem goStartsWith_nonempty {s pre : String} (hpre : pre.data ≠ [])
    (h : goStartsWith s pre = true) : s ≠ "" := by
  intro hs
  subst hs
  rw [goStartsWith] at h
  rw [List.isPrefixOf_iff_prefix] at h
  have hnil : ("" : String).data = [] := rfl
  rw [hnil, List.prefix_nil] at h
  exact hpre h

/-- Two candidate starts that differ in their first character cannot both
begin the same character list. -/
theorem isPrefixOf_head_ne {l : List Char} {a b : Char} {pa pb : List Char}
    (hne : a ≠ b) (h : (a :: pa).isPrefixOf l = true) :
    (b :: pb).isPrefixOf l = false := by
  cases l with
  | nil => simp [List.isPrefixOf] at h
  | cons c cs =>
    simp only [List.isPrefixOf, Bool.and_eq_true, beq_iff_eq] at h
    obtain ⟨hac, -⟩ := h
    simp only [List.isPrefixOf, Bool.and_eq_false_iff]
    left
    rw [beq_eq_false_iff_ne]
    intro hbc
    exact hne (hac ▸ hbc ▸ rfl)

/-- C6: both runner variants classify the trimmed, lowercased process-list
output by prefix: `up ` yields running, `exited ` yields exited, empty output
yields not-found, and anything else is returned as the normalized string. -/
theorem containerStatusClassify_spec (out : String) :
    (goStartsWith (goToLower (goTrimSpace out)) "up " = true →
      dockerContainerStatusClassify out = "running") ∧
    (goStartsWith (goToLower (goTrimSpace out)) "exited " = true →
      dockerContainerStatusClassify out = "exited") ∧
    (goToLower (goTrimSpace out) = "" →
      dockerContainerStatusClassify out = "not-found") ∧
    (goToLower (goTrimSpace out) ≠ "" →
      goStartsWith (goToLower (goTrimSpace out)) "up " = false →
      goStartsWith (goToLower (goTrimSpace out)) "exited " = false →
      dockerContainerStatusClassify out = goToLower (goTrimSpace out)) ∧
    composeContainerStatusClassify out = dockerContainerStatusClassify out := by
  simp only [dockerContainerStatusClassify, composeContainerStatusClassify]
  generalize goToLower (goTrimSpace out) = s
  refine ⟨?_, ?_, ?_, ?_, trivial⟩
  · intro h
    have hne : s ≠ "" := goStartsWith_nonempty (by decide) h
    rw [if_neg hne, if_pos h]
  · intro h
    have hne : s ≠ "" := goStartsWith_nonempty (by decide) h
    have h' : ('e' :: ['x', 'i', 't', 'e', 'd', ' ']).isPrefixOf s.data = true := h
    have hup : goStartsWith s "up " = false := by
      show ("up ".data).isPrefixOf s.data = false
      exact isPrefixOf_head_ne (by decide) h'
    rw [if_neg hne, if_neg (by simp [hup]), if_pos h]
  · intro h
    rw [if_pos h]
  · intro h1 h2 h3
    rw [if_neg h1, if_neg (by simp [h2]), if_neg (by simp [h3])]

/-- C6 witness: `Up 3 hours` maps to running, `Exited (0) 2 minutes ago`
maps to exited, and empty output maps to not-found, on both runner variants. -/
theorem containerStatusClassify_spec_witness :
    dockerContainerStatusClassify "Up 3 hours" = "running" ∧
    dockerContainerStatusClassify "Exited (0) 2 minutes ago" = "exited" ∧
    dockerContainerStatusClassify "" = "not-found" ∧
    composeContainerStatusClassify "Up 3 hours" = "running" := by
  have w1 := (containerStatusClassify_spec "Up 3 hours").1 (by decide)
  have w2 := (containerStatusClassify_spec "Exited (0) 2 minutes ago").2.1 (by decide)
  have w3 := (containerStatusClassify_spec "").2.2.1 (by decide)
  have w4 := (containerStatusClassify_spec "Up 3 hours").2.2.2.2
  exact ⟨w1, w2, w3, w4.trans w1⟩

/-- C7: with a runner attached and image/status checks succeeding, a
`running` status makes `InitDB` return nil without invoking RunContainer or
StartContainer, while `exited` or `not-found` make it invoke RunContainer
(never StartContainer), returning nil exactly when that invocation succeeds. -/
theorem initDB_runner_actions (r : RunnerBeh) (flag : Bool) (st : String)
    (hE : r.ensureImage = .ok ()) (hS : r.containerStatus = .ok st) :
    (st = "running" →
      serviceInitDB (some r) flag = ([.ensureImage, .containerStatus], .ok (), flag)) ∧
    (st = "exited" ∨ st = "not-found" →
      (serviceInitDB (some r) flag).1 =
        [.ensureImage, .containerStatus, .runContainer] ∧
      ((serviceInitDB (some r) flag).2.1 = .ok () ↔ r.runContainer = .ok ())) := by
  constructor
  · intro h
    simp [serviceInitDB, hE, hS, h]
  · intro h
    rcases h with h | h
    · cases hr : r.runContainer with
      | ok u => simp [serviceInitDB, hE, hS, h, hr]
      | error e => simp [serviceInitDB, hE, hS, h, hr]
    · cases hr : r.runContainer with
      | ok u => simp [serviceInitDB, hE, hS, h, hr]
      | error e => simp [serviceInitDB, hE, hS, h, hr]

/-- C7 witness: a runner reporting `running` leaves `InitDB` a successful
no-action, and one reporting `not-found` leads to a RunContainer invocation. -/
theorem initDB_runner_actions_witness :
    serviceInitDB (some ⟨.ok (), .ok "running", .ok (), .ok (), .ok ()⟩) false =
      ([.ensureImage, .containerStatus], .ok (), false) ∧
    (serviceInitDB (some ⟨.ok (), .ok "not-found", .ok (), .ok (), .ok ()⟩) false).1 =
      [.ensureImage, .containerStatus, .runContainer] := by
  have h1 := (initDB_runner_actions ⟨.ok (), .ok "running", .ok (), .ok (), .ok ()⟩
    false "running" rfl rfl).1 rfl
  have h2 := (initDB_runner_actions ⟨.ok (), .ok "not-found", .ok (), .ok (), .ok ()⟩
    false "not-found" rfl rfl).2 (Or.inr rfl)
  exact ⟨h1, h2.1⟩

/-- C8: `LatestRecord` issues exactly the request of `GetRecords` with limit
1 and descending sort on the given field, and returns the same result. -/
theorem latestRecord_is_getRecords (s : ServiceCfg) (oracle : HttpOracle)
    (decode : Decoder) (collection sortBy : String) :
    LatestRecordT s oracle decode collection sortBy =
      GetRecordsT s oracle decode collection 1 sortBy "DESC" := rfl

/-- C9: `Close` always returns nil, for every runner behavior including a
failing StopContainer, invokes StopContainer exactly once when a runner is
attached, and is unaffected by the startedDocker flag. -/
theorem close_always_ok (docker : Option RunnerBeh) (flag : Bool) :
    (serviceClose docker flag).2 = .ok () ∧
    serviceClose docker flag = serviceClose docker (!flag) ∧
    (∀ r : RunnerBeh, (serviceClose (some r) flag).1 = [.stopContainer]) ∧
    (∀ r rAlt : RunnerBeh, serviceClose (some r) flag = serviceClose (some rAlt) flag) := by
  cases docker <;> simp [serviceClose]

/-- `execWithArgs` always issues exactly its one request, whatever the
server answers. -/
theorem execWithArgsT_trace (s : ServiceCfg) (oracle : HttpOracle) (decode : Decoder)
    (query : String) (args : Option ArgMap) :
    (execWithArgsT s oracle decode query args).1 = [⟨execUrl s, query, args⟩] := by
  simp only [execWithArgsT]
  cases h : oracle ⟨execUrl s, query, args⟩ with
  | transportError e => rfl
  | response code body => by_cases hc : code / 100 ≠ 2 <;> simp [hc]

/-- C10: an empty collection passes through `BuildSelect` and the read/delete
methods without validation -- `GetRecord`, `GetRecords`, `Search`,
`LatestRecord` and `DeleteRecord` still issue their single HTTP request with
the malformed statement -- while `BuildInsert`, `BuildUpdate` and
`DeleteAllRecords` return build-time validation errors with no request. -/
theorem empty_collection_no_validation (s : ServiceCfg) (oracle : HttpOracle)
    (decode : Decoder) (id sortBy sortOrder : String) (limit : Int)
    (filters : List (String × String)) (doc patch : List (String × GoVal)) :
    BuildSelect "" [] 0 "" "" = "SELECT * FROM " ∧
    (GetRecordT s oracle decode "" id).1 =
      [⟨execUrl s, "SELECT * FROM  WHERE _id == :id LIMIT 1", some [("id", GoVal.str id)]⟩] ∧
    (GetRecordsT s oracle decode "" limit sortBy sortOrder).1 =
      [⟨execUrl s, BuildSelect "" [] limit sortBy sortOrder, none⟩] ∧
    (SearchT s oracle decode "" filters limit sortBy sortOrder).1 =
      [⟨execUrl s, BuildSelect "" filters limit sortBy sortOrder, none⟩] ∧
    (LatestRecordT s oracle decode "" sortBy).1 =
      [⟨execUrl s, BuildSelect "" [] 1 sortBy "DESC", none⟩] ∧
    (DeleteRecordT s oracle decode "" id).1 =
      [⟨execUrl s, "DELETE FROM  WHERE _id = :id", some [("id", GoVal.str id)]⟩] ∧
    BuildInsert "" doc = .error "collection required" ∧
    BuildUpdate "" id patch = .error "collection and id required" ∧
    DeleteAllRecordsT s oracle decode "" = ([], .error "collection required") := by
  refine ⟨rfl, ?_, ?_, ?_, ?_, ?_, rfl, rfl, rfl⟩
  · exact execWithArgsT_trace s oracle decode _ _
  · exact execWithArgsT_trace s oracle decode _ _
  · exact execWithArgsT_trace s oracle decode _ _
  · exact execWithArgsT_trace s oracle decode _ _
  · exact execWithArgsT_trace s oracle decode _ _
